import Mathlib

/-!
Verification of the Clork ML environment adapter (`python/clork_env.py`).

The development shallowly embeds the adapter: the `Action` dataclass and its wire
encoding, the shorthand-string parser, the reward-extraction policy of `step`,
the `valid_actions` enumeration, the convenience accessors, `close`, and the
vectorized wrapper `ClorkVecEnv`.  The external game engine is opaque and is
consulted only through a line protocol, so each round trip takes the engine's
reply (or an end-of-file outcome together with the stderr contents) as an
explicit oracle parameter.  Strings are handled at the ASCII level, and JSON
numbers are modelled as rationals.
-/

deriving instance DecidableEq for Except

namespace Clork

/-- Whitespace characters recognized by Python `str.split()` with no separator
(modelled at the ASCII level). -/
def pyIsSpace (c : Char) : Bool :=
  c = ' ' || c = '\t' || c = '\n' || c = '\r' || c = '\x0b' || c = '\x0c'

/-- Lowercasing of a single character, modelling `str.lower()` on the ASCII range:
uppercase latin letters (codepoints 65..90) are shifted by 32, everything else is
left unchanged. -/
def pyLowerChar (c : Char) : Char :=
  if 65 ≤ c.toNat ∧ c.toNat ≤ 90 then Char.ofNat (c.toNat + 32) else c

/-- Lowercasing of a string, modelling `str.lower()` (ASCII range). -/
def pyLower (s : String) : String :=
  String.mk (s.data.map pyLowerChar)

/-- Helper for `pySplit`: walks the character list, accumulating the current
(reversed) word and emitting it when a whitespace run or the end is reached. -/
def splitWsAux : List Char → List Char → List String
  | [], acc => if acc.isEmpty then [] else [String.mk acc.reverse]
  | c :: rest, acc =>
    if pyIsSpace c then
      if acc.isEmpty then splitWsAux rest []
      else String.mk acc.reverse :: splitWsAux rest []
    else splitWsAux rest (c :: acc)

/-- Whitespace splitting, modelling Python `str.split()` with no separator:
tokens are the maximal runs of non-whitespace characters; no empty tokens. -/
def pySplit (s : String) : List String :=
  splitWsAux s.data []

/-- Joining a list of strings with a separator, modelling `sep.join(parts)`. -/
def pyJoin (sep : String) : List String → String
  | [] => ""
  | [t] => t
  | t :: rest => t ++ sep ++ pyJoin sep rest

/-- Lookup in an association list, modelling Python `dict` access: `alookup d k`
is `some v` when the key is present (`k in d`) and `none` otherwise. -/
def alookup {α : Type} (d : List (String × α)) (k : String) : Option α :=
  Option.map Prod.snd (List.find? (fun p => p.1 == k) d)

/-- Wire objects: JSON objects with string-or-null values, as exchanged with the
engine for commands.  A key bound to `none` models an explicit JSON `null`. -/
abbrev Wire := List (String × Option String)

/-- The `Action` dataclass.  `verb` is an `Option` because the Python dataclass
does not enforce its declared type: `Action.from_dict` stores the result of
`d.get("verb")`, which is `None` when the key is absent. -/
structure Action where
  verb : Option String
  direction : Option String
  direct_object : Option String
  indirect_object : Option String
  prep : Option String
  deriving DecidableEq

/-- Emission of one wire field guarded by Python truthiness (`if self.direction:`):
the field is emitted only when the value is present and non-empty. -/
def truthyField (key : String) (v : Option String) : Wire :=
  match v with
  | none => []
  | some s => if s = "" then [] else [(key, some s)]

/-- Encoding `Action.to_dict`: the verb is always emitted first; each optional
field is emitted only when truthy, in the source's insertion order
direction, direct-object, indirect-object, prep. -/
def Action.to_dict (a : Action) : Wire :=
  [("verb", a.verb)]
    ++ truthyField "direction" a.direction
    ++ truthyField "direct-object" a.direct_object
    ++ truthyField "indirect-object" a.indirect_object
    ++ truthyField "prep" a.prep

/-- Decoding `Action.from_dict`: each field is read with `d.get(...)`, which
collapses an absent key and an explicit null to `None`; unknown extra keys are
ignored. -/
def Action.from_dict (d : Wire) : Action :=
  { verb := Option.join (alookup d "verb"),
    direction := Option.join (alookup d "direction"),
    direct_object := Option.join (alookup d "direct-object"),
    indirect_object := Option.join (alookup d "indirect-object"),
    prep := Option.join (alookup d "prep") }

/-- Well-formedness of an `Action`: the verb is present and non-empty (the
invariant stated for the data model), and no optional field holds the
degenerate empty string, which Python truthiness silently drops from the wire
encoding. -/
def Action.wellFormed (a : Action) : Prop :=
  a.verb ≠ none ∧ a.verb ≠ some "" ∧ a.direction ≠ some "" ∧
    a.direct_object ≠ some "" ∧ a.indirect_object ≠ some "" ∧ a.prep ≠ some ""

instance (a : Action) : Decidable a.wellFormed :=
  inferInstanceAs (Decidable (a.verb ≠ none ∧ a.verb ≠ some "" ∧ a.direction ≠ some "" ∧
    a.direct_object ≠ some "" ∧ a.indirect_object ≠ some "" ∧ a.prep ≠ some ""))

/-- Direction shortcut vocabulary of `_parse_action_string`. -/
def directions : List String :=
  ["n", "s", "e", "w", "ne", "nw", "se", "sw",
   "north", "south", "east", "west",
   "northeast", "northwest", "southeast", "southwest",
   "up", "down", "u", "d", "in", "out"]

/-- Core of `_parse_action_string`, acting on the token list.  The source's
early returns become nested cases: empty, direction check on the first token,
one token, two tokens, four-or-more tokens, and the remaining three-token case
which joins the tail into the direct object. -/
def parseTokens : List String → Wire
  | [] => [("verb", some "look")]
  | p0 :: rest =>
    if directions.contains p0 then
      [("verb", some "go"), ("direction", some p0)]
    else
      match rest with
      | [] => [("verb", some p0)]
      | [p1] => [("verb", some p0), ("direct-object", some p1)]
      | p1 :: p2 :: p3 :: _ =>
        [("verb", some p0), ("direct-object", some p1),
         ("prep", some p2), ("indirect-object", some p3)]
      | [p1, p2] =>
        [("verb", some p0), ("direct-object", some (pyJoin " " [p1, p2]))]

/-- The parser `ClorkEnv._parse_action_string`: lowercase the whole input, split
on whitespace, then dispatch on the tokens. -/
def parse_action_string (action_str : String) : Wire :=
  parseTokens (pySplit (pyLower action_str))

/-- Shorthand grammar as the (amended) specification words it, stated by token
count: empty input is `look`; an input whose first token is in the direction
vocabulary is `go` with that direction, whatever the token count; otherwise a
single token is a bare verb, two tokens are verb plus direct object, four or
more tokens are verb, direct object, preposition, indirect object, and the
remaining case (exactly three tokens) joins the tail into the direct object. -/
def shorthandSpec (parts : List String) : Wire :=
  if parts.length = 0 then [("verb", some "look")]
  else if directions.contains (parts.getD 0 "") then
    [("verb", some "go"), ("direction", some (parts.getD 0 ""))]
  else if parts.length = 1 then [("verb", some (parts.getD 0 ""))]
  else if parts.length = 2 then
    [("verb", some (parts.getD 0 "")), ("direct-object", some (parts.getD 1 ""))]
  else if 4 ≤ parts.length then
    [("verb", some (parts.getD 0 "")), ("direct-object", some (parts.getD 1 "")),
     ("prep", some (parts.getD 2 "")), ("indirect-object", some (parts.getD 3 ""))]
  else
    [("verb", some (parts.getD 0 "")), ("direct-object", some (pyJoin " " parts.tail))]

/-- Room sub-object of an observation (`room {id, name}`); the adapter reads
both keys with a `None` default. -/
structure Room where
  id : Option String
  name : Option String
  deriving DecidableEq

/-- One entry of `two-object-actions`; each key is read with `.get`, hence may
be absent. -/
structure TwoObjWire where
  verb : Option String
  direct_object : Option String
  prep : Option String
  indirect_object : Option String
  deriving DecidableEq

/-- Valid-actions menu of an observation.  Each component is read with an empty
default (`va.get("meta-verbs", [])`, `va.get("movement", {}).get("directions",
[])`, and so on), so an absent component is modelled as the empty list.
`object_actions` keeps the menu's key order; `inventory` holds the item ids. -/
structure Menu where
  meta_verbs : List String
  directions : List String
  object_actions : List (String × List String)
  two_object_actions : List TwoObjWire
  inventory : List String
  deriving DecidableEq

/-- Empty menu, the default when the observation carries no `valid-actions`
key. -/
def Menu.empty : Menu :=
  { meta_verbs := [], directions := [], object_actions := [],
    two_object_actions := [], inventory := [] }

/-- Observation returned by the engine.  Every recognized key is optional (an
`Option` field models key presence); numeric values are modelled as rationals
and `rewards` / `session-stats` as association lists. -/
structure Obs where
  room : Option Room
  score : Option Int
  moves : Option Int
  message : Option String
  game_over : Option Bool
  valid_actions : Option Menu
  rewards : Option (List (String × ℚ))
  composite_reward : Option ℚ
  session_stats : Option (List (String × ℚ))
  deriving DecidableEq

/-- Failure conditions raised by the adapter (all `RuntimeError` in the source,
split here by the condition that triggers them, following the spec's error
taxonomy). -/
inductive ClorkError where
  | processDied (msg : String)
  | notStarted (msg : String)
  | noObservation (msg : String)
  deriving DecidableEq

/-- One blocking read from the engine's stdout: either one (already decoded)
reply line, or an empty/EOF read, in which case the stderr contents are what
the adapter drains.  The engine is an external process, so the outcome of the
read is an oracle parameter of each round trip. -/
inductive ChannelRead where
  | line (response : Obs)
  | eof (stderrContents : String)
  deriving DecidableEq

/-- The three forms accepted by `ClorkEnv.step`: an `Action` object, a raw
shorthand string, or an already-shaped wire object. -/
inductive ActionInput where
  | act (a : Action)
  | shorthand (s : String)
  | dict (w : Wire)
  deriving DecidableEq

/-- Normalization at the top of `step`: `Action.to_dict` for an `Action`,
`_parse_action_string` for a string, and pass-through for a dict. -/
def normalizeAction : ActionInput → Wire
  | .act a => a.to_dict
  | .shorthand s => parse_action_string s
  | .dict w => w

/-- Info payload of a step: the reply's `rewards`, `session-stats` and
`message` copied over when present (an absent reply key stays absent here). -/
structure Info where
  rewards : Option (List (String × ℚ))
  session_stats : Option (List (String × ℚ))
  message : Option String
  deriving DecidableEq

/-- The (observation, reward, done, info) tuple returned by `step`. -/
structure StepResult where
  observation : Obs
  reward : ℚ
  done : Bool
  info : Info
  deriving DecidableEq

/-- State of one `ClorkEnv` instance: the reward-tracking flag, the subprocess
handle (`some ()` when the process is running), the cached observation, the
last reward and the done flag. -/
structure ClorkEnv where
  use_rewards : Bool
  process : Option Unit
  observation : Option Obs
  last_reward : ℚ
  done : Bool
  deriving DecidableEq

/-- Meta verbs excluded from `valid_actions` by default (`EXCLUDED_META_VERBS`
in the source). -/
def EXCLUDED_META_VERBS : List String :=
  ["quit", "save", "restore", "restart"]

/-- The method `ClorkEnv.step`: normalize the action, require a live process,
perform the round trip (the engine's reply is the `read` oracle; an EOF read
raises the process-died error carrying the drained stderr), then extract the
reward by the source's priority chain, the done flag, and the info payload. -/
def ClorkEnv.step (env : ClorkEnv) (action : ActionInput) (read : ChannelRead) :
    Except ClorkError (ClorkEnv × StepResult) :=
  let _action_dict := normalizeAction action
  match env.process with
  | none => Except.error (ClorkError.notStarted "Environment not started. Call reset() first.")
  | some _ =>
    match read with
    | ChannelRead.eof stderrContents =>
      Except.error (ClorkError.processDied ("Clork process died unexpectedly: " ++ stderrContents))
    | ChannelRead.line response =>
      let reward : ℚ :=
        match env.use_rewards, response.composite_reward with
        | true, some r => r
        | _, _ =>
          match response.rewards with
          | some rs =>
            match alookup rs "score-delta" with
            | some v => v
            | none => 0
          | none => 0
      let doneFlag : Bool := response.game_over.getD false
      let info : Info :=
        { rewards := response.rewards,
          session_stats := response.session_stats,
          message := response.message }
      Except.ok
        ({ env with observation := some response, last_reward := reward, done := doneFlag },
         { observation := response, reward := reward, done := doneFlag, info := info })

/-- The method `ClorkEnv.reset`: on a never-started environment, start the
process and read the initial state line (EOF there raises with the
initial-state message); on a live process, send the in-band reset command and
read the reply.  Either way the cached observation is replaced and last reward
and done are cleared. -/
def ClorkEnv.reset (env : ClorkEnv) (read : ChannelRead) :
    Except ClorkError (ClorkEnv × Obs) :=
  match env.process with
  | none =>
    match read with
    | ChannelRead.eof stderrContents =>
      Except.error (ClorkError.processDied ("Failed to read initial state: " ++ stderrContents))
    | ChannelRead.line obs =>
      Except.ok
        ({ env with process := some (), observation := some obs,
                    last_reward := 0, done := false }, obs)
  | some _ =>
    match read with
    | ChannelRead.eof stderrContents =>
      Except.error (ClorkError.processDied ("Clork process died unexpectedly: " ++ stderrContents))
    | ChannelRead.line obs =>
      Except.ok
        ({ env with observation := some obs, last_reward := 0, done := false }, obs)

/-- The method `ClorkEnv.close`: a no-op on a never-started or already-closed
environment; otherwise the graceful-then-forced shutdown runs with every
exception caught internally (`try`/`except`/`finally` in the source), so the
call always succeeds and ends with the process handle cleared. -/
def ClorkEnv.close (env : ClorkEnv) : Except ClorkError ClorkEnv :=
  match env.process with
  | none => Except.ok env
  | some _ => Except.ok { env with process := none }

/-- The method `ClorkEnv.valid_actions`: requires a cached observation, then
accumulates (in the source's append order) the filtered meta-verbs, one `go`
action per movement direction, one action per (object, verb) pair in the
menu's key order, and one action per two-object tuple. -/
def ClorkEnv.valid_actions (env : ClorkEnv) (include_dangerous : Bool) :
    Except ClorkError (List Action) :=
  match env.observation with
  | none => Except.error (ClorkError.noObservation "No observation available. Call reset() first.")
  | some obs =>
    let va := obs.valid_actions.getD Menu.empty
    let actions : List Action := []
    let actions := va.meta_verbs.foldl
      (fun acc verb =>
        if include_dangerous || !(EXCLUDED_META_VERBS.contains verb) then
          acc ++ [{ verb := some verb, direction := none, direct_object := none,
                    indirect_object := none, prep := none }]
        else acc)
      actions
    let actions := va.directions.foldl
      (fun acc dir =>
        acc ++ [{ verb := some "go", direction := some dir, direct_object := none,
                  indirect_object := none, prep := none }])
      actions
    let actions := va.object_actions.foldl
      (fun acc p =>
        p.2.foldl
          (fun acc2 verb =>
            acc2 ++ [{ verb := some verb, direction := none, direct_object := some p.1,
                       indirect_object := none, prep := none }])
          acc)
      actions
    let actions := va.two_object_actions.foldl
      (fun acc t =>
        acc ++ [{ verb := t.verb, direction := none, direct_object := t.direct_object,
                  indirect_object := t.indirect_object, prep := t.prep }])
      actions
    Except.ok actions

/-- Accessor `ClorkEnv.score`: the cached observation's score, defaulting to 0. -/
def ClorkEnv.score (env : ClorkEnv) : Int :=
  match env.observation with
  | none => 0
  | some o => o.score.getD 0

/-- Accessor `ClorkEnv.moves`: the cached observation's move count, defaulting
to 0. -/
def ClorkEnv.moves (env : ClorkEnv) : Int :=
  match env.observation with
  | none => 0
  | some o => o.moves.getD 0

/-- Accessor `ClorkEnv.room`: the cached observation's room id, defaulting to
absent. -/
def ClorkEnv.room (env : ClorkEnv) : Option String :=
  match env.observation with
  | none => none
  | some o => (o.room.getD { id := none, name := none }).id

/-- Accessor `ClorkEnv.room_name`: the cached observation's room name,
defaulting to absent. -/
def ClorkEnv.room_name (env : ClorkEnv) : Option String :=
  match env.observation with
  | none => none
  | some o => (o.room.getD { id := none, name := none }).name

/-- Accessor `ClorkEnv.message`: the last message, defaulting to the empty
string. -/
def ClorkEnv.message (env : ClorkEnv) : String :=
  match env.observation with
  | none => ""
  | some o => o.message.getD ""

/-- Accessor `ClorkEnv.inventory`: the item ids of the menu's inventory,
defaulting to empty. -/
def ClorkEnv.inventory (env : ClorkEnv) : List String :=
  match env.observation with
  | none => []
  | some o => (o.valid_actions.getD Menu.empty).inventory

/-- Accessor `ClorkEnv.session_stats`: the cached session statistics,
defaulting to the empty mapping. -/
def ClorkEnv.session_stats (env : ClorkEnv) : List (String × ℚ) :=
  match env.observation with
  | none => []
  | some o => o.session_stats.getD []

/-- Reward-extraction policy exactly as the specification words it: (1) if
reward-tracking is enabled and the reply carries `composite-reward`, use it;
(2) else if the reply carries `rewards.score-delta`, use it; (3) else 0. -/
def rewardSpecPolicy (tracking : Bool) (response : Obs) : ℚ :=
  if tracking = true ∧ response.composite_reward.isSome then
    response.composite_reward.getD 0
  else if (Option.bind response.rewards (fun rs => alookup rs "score-delta")).isSome then
    (Option.bind response.rewards (fun rs => alookup rs "score-delta")).getD 0
  else 0

/-- Projection of a step outcome onto its reward, when the step succeeded. -/
def stepRewardOf (r : Except ClorkError (ClorkEnv × StepResult)) : Option ℚ :=
  match r with
  | Except.ok p => some p.2.reward
  | Except.error _ => none

/-- The vectorized wrapper `ClorkVecEnv`: an ordered list of independently
owned child environments. -/
structure ClorkVecEnv where
  envs : List ClorkEnv
  deriving DecidableEq

/-- The body of the source's list comprehension
`[env.step(action) for env, action in zip(self.envs, actions)]`: children are
stepped left to right, and a child's exception aborts the comprehension and
propagates unchanged. -/
def stepChildren :
    List (ClorkEnv × ActionInput × ChannelRead) →
      Except ClorkError (List (ClorkEnv × StepResult))
  | [] => Except.ok []
  | p :: rest =>
    match ClorkEnv.step p.1 p.2.1 p.2.2 with
    | Except.error e => Except.error e
    | Except.ok r =>
      match stepChildren rest with
      | Except.error e => Except.error e
      | Except.ok rs => Except.ok (r :: rs)

/-- The method `ClorkVecEnv.step`: run the comprehension over the zipped
children, actions and per-child read oracles; on success return the
index-aligned result lists together with the updated children. -/
def ClorkVecEnv.step (v : ClorkVecEnv) (actions : List ActionInput)
    (reads : List ChannelRead) :
    Except ClorkError (ClorkVecEnv × List Obs × List ℚ × List Bool × List Info) :=
  match stepChildren (v.envs.zip (actions.zip reads)) with
  | Except.error e => Except.error e
  | Except.ok results =>
    Except.ok
      ({ envs := results.map (fun r => r.1) },
       results.map (fun r => r.2.observation),
       results.map (fun r => r.2.reward),
       results.map (fun r => r.2.done),
       results.map (fun r => r.2.info))

/-- Observation with every optional key absent. -/
def obsEmpty : Obs :=
  { room := none, score := none, moves := none, message := none, game_over := none,
    valid_actions := none, rewards := none, composite_reward := none,
    session_stats := none }

/-- Started environment with reward tracking enabled and no cached
observation. -/
def envStarted : ClorkEnv :=
  { use_rewards := true, process := some (), observation := none,
    last_reward := 0, done := false }

/-- Started environment with reward tracking disabled. -/
def envNoRewards : ClorkEnv :=
  { use_rewards := false, process := some (), observation := none,
    last_reward := 0, done := false }

/-- Unstarted environment (never reset). -/
def envUnstarted : ClorkEnv :=
  { use_rewards := true, process := none, observation := none,
    last_reward := 0, done := false }

/-- Wire object for a bare `look` command, used as a sample action. -/
def actLook : ActionInput :=
  ActionInput.dict [("verb", some "look")]

/-- Reply carrying both `composite-reward: 3` and `rewards.score-delta: 1`. -/
def respBoth : Obs :=
  { obsEmpty with composite_reward := some 3, rewards := some [("score-delta", 1)] }

/-- Reply carrying only `rewards.score-delta: 1`. -/
def respDelta : Obs :=
  { obsEmpty with rewards := some [("score-delta", 1)] }

/-- Sample valid-actions menu used by the concrete witnesses. -/
def menuSample : Menu :=
  { meta_verbs := ["look", "inventory", "quit"],
    directions := ["north"],
    object_actions := [("lamp", ["take", "drop"])],
    two_object_actions :=
      [{ verb := some "put", direct_object := some "lamp",
         prep := some "in", indirect_object := some "box" }],
    inventory := [] }

/-- Observation carrying the sample menu. -/
def obsMenu : Obs :=
  { obsEmpty with valid_actions := some menuSample }

/-- Started environment whose cached observation carries the sample menu. -/
def envWithMenu : ClorkEnv :=
  { envStarted with observation := some obsMenu }

/-! Helper lemmas about the string model. -/

theorem charToNat_ofNat (n : Nat) (h : Nat.isValidChar n) :
    (Char.ofNat n).toNat = n := by
  rw [Char.ofNat, dif_pos h]
  rfl

theorem pyLowerChar_fix (c : Char) (h : ¬(65 ≤ c.toNat ∧ c.toNat ≤ 90)) :
    pyLowerChar c = c := by
  unfold pyLowerChar
  rw [if_neg h]

theorem pyLowerChar_toNat_of_upper (c : Char) (h : 65 ≤ c.toNat ∧ c.toNat ≤ 90) :
    (pyLowerChar c).toNat = c.toNat + 32 := by
  unfold pyLowerChar
  rw [if_pos h]
  exact charToNat_ofNat _ (Or.inl (by omega))

theorem pyLowerChar_idem (c : Char) :
    pyLowerChar (pyLowerChar c) = pyLowerChar c := by
  by_cases h : 65 ≤ c.toNat ∧ c.toNat ≤ 90
  · have h2 := pyLowerChar_toNat_of_upper c h
    apply pyLowerChar_fix
    omega
  · rw [pyLowerChar_fix c h, pyLowerChar_fix c h]

theorem pyLower_data (s : String) :
    (pyLower s).data = s.data.map pyLowerChar := rfl

theorem map_fixed {α : Type} (f : α → α) (l : List α) (h : ∀ a ∈ l, f a = a) :
    l.map f = l := by
  induction l with
  | nil => rfl
  | cons a t ih =>
    simp only [List.map_cons]
    rw [h a (by simp), ih (fun b hb => h b (by simp [hb]))]

theorem pyLower_idem (s : String) : pyLower (pyLower s) = pyLower s := by
  show String.mk ((pyLower s).data.map pyLowerChar) = pyLower s
  rw [map_fixed pyLowerChar (pyLower s).data (by
    intro c hc
    rw [pyLower_data] at hc
    rcases List.mem_map.mp hc with ⟨d, _, rfl⟩
    exact pyLowerChar_idem d)]

theorem pyLower_eq_self (s : String) (h : ∀ c ∈ s.data, pyLowerChar c = c) :
    pyLower s = s := by
  cases s with
  | mk l =>
    show String.mk (l.map pyLowerChar) = String.mk l
    rw [map_fixed pyLowerChar l h]

theorem splitWsAux_chars (l : List Char) :
    ∀ acc : List Char, ∀ t ∈ splitWsAux l acc, ∀ c ∈ t.data, c ∈ l ∨ c ∈ acc := by
  induction l with
  | nil =>
    intro acc t ht c hc
    unfold splitWsAux at ht
    by_cases ha : acc.isEmpty
    · rw [if_pos ha] at ht
      simp at ht
    · rw [if_neg ha] at ht
      simp only [List.mem_singleton] at ht
      subst ht
      right
      simpa using hc
  | cons d rest ih =>
    intro acc t ht c hc
    unfold splitWsAux at ht
    by_cases hd : pyIsSpace d
    · rw [if_pos hd] at ht
      by_cases ha : acc.isEmpty
      · rw [if_pos ha] at ht
        rcases ih [] t ht c hc with h | h
        · exact Or.inl (List.mem_cons_of_mem _ h)
        · simp at h
      · rw [if_neg ha] at ht
        rcases List.mem_cons.mp ht with h | h
        · subst h
          right
          simpa using hc
        · rcases ih [] t h c hc with h2 | h2
          · exact Or.inl (List.mem_cons_of_mem _ h2)
          · simp at h2
    · rw [if_neg hd] at ht
      rcases ih (d :: acc) t ht c hc with h | h
      · exact Or.inl (List.mem_cons_of_mem _ h)
      · rcases List.mem_cons.mp h with h2 | h2
        · exact Or.inl (h2 ▸ List.mem_cons_self _ _)
        · exact Or.inr h2

theorem token_lower_fixed (s t : String) (ht : t ∈ pySplit (pyLower s)) :
    pyLower t = t := by
  apply pyLower_eq_self
  intro c hc
  rcases splitWsAux_chars (pyLower s).data [] t ht c hc with h | h
  · rw [pyLower_data] at h
    rcases List.mem_map.mp h with ⟨d, _, rfl⟩
    exact pyLowerChar_idem d
  · simp at h

theorem pyLower_append (a b : String) :
    pyLower (a ++ b) = pyLower a ++ pyLower b := by
  show String.mk ((a ++ b).data.map pyLowerChar) = _
  rw [String.data_append, List.map_append]
  rfl

theorem pyJoin_lower_fixed (ts : List String) (h : ∀ t ∈ ts, pyLower t = t) :
    pyLower (pyJoin " " ts) = pyJoin " " ts := by
  induction ts with
  | nil => rfl
  | cons t rest ih =>
    cases rest with
    | nil => exact h t (by simp)
    | cons u rest2 =>
      show pyLower (t ++ " " ++ pyJoin " " (u :: rest2)) = t ++ " " ++ pyJoin " " (u :: rest2)
      rw [pyLower_append, pyLower_append, h t (by simp),
        ih (fun x hx => h x (by simp [hx]))]
      rfl

theorem parseTokens_eq_shorthandSpec (parts : List String) :
    parseTokens parts = shorthandSpec parts := by
  match parts with
  | [] => rfl
  | [p0] =>
    by_cases h : directions.contains p0 <;>
      simp [parseTokens, shorthandSpec, h]
  | [p0, p1] =>
    by_cases h : directions.contains p0 <;>
      simp [parseTokens, shorthandSpec, h]
  | [p0, p1, p2] =>
    by_cases h : directions.contains p0 <;>
      simp [parseTokens, shorthandSpec, h, pyJoin]
  | p0 :: p1 :: p2 :: p3 :: rest =>
    by_cases h : directions.contains p0 <;>
      simp [parseTokens, shorthandSpec, h]

theorem parseTokens_lower_fixed (parts : List String)
    (hfix : ∀ t ∈ parts, pyLower t = t) :
    parseTokens parts = (parseTokens parts).map (fun kv => (kv.1, Option.map pyLower kv.2)) := by
  have hlook : pyLower "look" = "look" := by decide
  have hgo : pyLower "go" = "go" := by decide
  match parts with
  | [] => simp [parseTokens, hlook]
  | p0 :: rest =>
    have h0 : pyLower p0 = p0 := hfix p0 (by simp)
    by_cases hd : directions.contains p0
    · simp only [parseTokens]
      rw [if_pos hd]
      simp [hgo, h0]
    · match rest with
      | [] =>
        simp only [parseTokens]
        rw [if_neg hd]
        simp [h0]
      | [p1] =>
        have h1 : pyLower p1 = p1 := hfix p1 (by simp)
        simp only [parseTokens]
        rw [if_neg hd]
        simp [h0, h1]
      | [p1, p2] =>
        have hj : pyLower (pyJoin " " [p1, p2]) = pyJoin " " [p1, p2] := by
          apply pyJoin_lower_fixed
          intro x hx
          rcases List.mem_cons.mp hx with h | h
          · exact h ▸ hfix p1 (by simp)
          · simp only [List.mem_singleton] at h
            exact h ▸ hfix p2 (by simp)
        simp only [parseTokens]
        rw [if_neg hd]
        simp [h0, hj]
      | p1 :: p2 :: p3 :: rest2 =>
        have h1 : pyLower p1 = p1 := hfix p1 (by simp)
        have h2 : pyLower p2 = p2 := hfix p2 (by simp)
        have h3 : pyLower p3 = p3 := hfix p3 (by simp)
        simp only [parseTokens]
        rw [if_neg hd]
        simp [h0, h1, h2, h3]

/-- Claim C2 counterexample: on the two-token input `"up lamp"`, whose first
token is in the direction vocabulary, the parser returns
`{verb: go, direction: up}` and not the claimed `{verb: up, direct-object:
lamp}` (the direction check fires on the first token regardless of how many
tokens follow). -/
theorem shorthand_direction_counterexample :
    parse_action_string "up lamp" = [("verb", some "go"), ("direction", some "up")] ∧
    alookup (parse_action_string "up lamp") "verb" = some (some "go") ∧
    parse_action_string "up lamp" ≠ [("verb", some "up"), ("direct-object", some "lamp")] := by
  refine ⟨by decide, by decide, by decide⟩

/-- Claim C2 (amended): the shorthand parser agrees with the token-count
grammar in which the direction rule applies to every input whose FIRST token is
in the direction vocabulary (not only to single-token inputs); and on the
literal inputs of the claim it produces exactly the stated wire objects. -/
theorem parse_action_string_grammar :
    (∀ s : String, parse_action_string s = shorthandSpec (pySplit (pyLower s))) ∧
    parse_action_string "" = [("verb", some "look")] ∧
    parse_action_string "north" = [("verb", some "go"), ("direction", some "north")] ∧
    parse_action_string "take lamp" = [("verb", some "take"), ("direct-object", some "lamp")] ∧
    parse_action_string "put lamp in box" =
      [("verb", some "put"), ("direct-object", some "lamp"),
       ("prep", some "in"), ("indirect-object", some "box")] := by
  refine ⟨fun s => parseTokens_eq_shorthandSpec _, by decide, by decide, by decide, by decide⟩

/-- Claim C10: the parser lowercases the whole input before tokenizing — it is
invariant under pre-lowercasing the input, every field value of the produced
wire object is itself lowercase (fixed under lowercasing), and in particular
`"TAKE Lamp"` parses to `{verb: take, direct-object: lamp}`. -/
theorem parse_action_string_lowercases :
    parse_action_string "TAKE Lamp" = [("verb", some "take"), ("direct-object", some "lamp")] ∧
    (∀ s : String, parse_action_string s = parse_action_string (pyLower s)) ∧
    (∀ s : String, parse_action_string s =
      (parse_action_string s).map (fun kv => (kv.1, Option.map pyLower kv.2))) := by
  refine ⟨by decide, fun s => ?_, fun s => ?_⟩
  · show parseTokens (pySplit (pyLower s)) = parseTokens (pySplit (pyLower (pyLower s)))
    rw [pyLower_idem]
  · exact parseTokens_lower_fixed _ (fun t ht => token_lower_fixed s t ht)

theorem alookup_cons {α : Type} (k2 k : String) (v : α) (rest : List (String × α)) :
    alookup ((k2, v) :: rest) k = if k2 == k then some v else alookup rest k := by
  by_cases h : (k2 == k) = true
  · simp [alookup, List.find?, h]
  · simp [alookup, List.find?, h]

theorem alookup_nil {α : Type} (k : String) :
    alookup ([] : List (String × α)) k = none := rfl

theorem string_append_ne_empty (p s : String) (hp : p.data ≠ []) :
    p ++ s ≠ "" := by
  intro h
  have h2 := congrArg String.data h
  rw [String.data_append] at h2
  exact hp (List.append_eq_nil.mp h2).1

/-- Claim C3: decoding the encoding of any well-formed `Action` yields the same
`Action` back: `from_dict (to_dict a) = a`. -/
theorem action_round_trip (a : Action) (h : a.wellFormed) :
    Action.from_dict a.to_dict = a := by
  obtain ⟨verb, dir, dobj, iobj, prp⟩ := a
  obtain ⟨hv, hv2, hd, hdo, hio, hp⟩ := h
  rcases verb with _ | v
  · exact absurd rfl hv
  · cases dir <;> cases dobj <;> cases iobj <;> cases prp <;>
      simp_all [Action.to_dict, Action.from_dict, truthyField, alookup_cons, alookup_nil,
        Option.join]

/-- Claim C3 witness: the round trip on the concrete well-formed action
`put lamp in box`. -/
theorem action_round_trip_witness :
    Action.wellFormed ⟨some "put", none, some "lamp", some "box", some "in"⟩ ∧
    Action.from_dict (Action.to_dict ⟨some "put", none, some "lamp", some "box", some "in"⟩) =
      ⟨some "put", none, some "lamp", some "box", some "in"⟩ :=
  ⟨by decide, action_round_trip ⟨some "put", none, some "lamp", some "box", some "in"⟩ (by decide)⟩

/-- Claim C6 counterexample: decoding the empty wire object yields an `Action`
whose verb is absent, so `from_dict` does not guarantee a present non-empty
verb for every wire object. -/
theorem from_dict_verb_counterexample :
    (Action.from_dict []).verb = none := by decide

/-- Claim C6 (amended): `from_dict` copies the wire object's verb entry
verbatim, so whenever the wire object carries a non-empty string under `verb`
the resulting `Action` has a present, non-empty verb; `from_dict` itself does
not enforce presence (a wire object without the key decodes to an absent
verb). -/
theorem from_dict_verb (d : Wire) (s : String)
    (h : alookup d "verb" = some (some s)) (hs : s ≠ "") :
    (Action.from_dict d).verb = some s ∧ (Action.from_dict d).verb ≠ none ∧
      (Action.from_dict d).verb ≠ some "" := by
  have hv : (Action.from_dict d).verb = some s := by
    simp [Action.from_dict, h, Option.join]
  exact ⟨hv, by simp [hv], by simp [hv, hs]⟩

/-- Claim C6 witness: a wire object carrying `verb: take` decodes to a present
non-empty verb. -/
theorem from_dict_verb_witness :
    alookup ([("verb", some "take")] : Wire) "verb" = some (some "take") ∧
    ("take" : String) ≠ "" ∧
    (Action.from_dict [("verb", some "take")]).verb = some "take" :=
  ⟨by decide, by decide,
    (from_dict_verb [("verb", some "take")] "take" (by decide) (by decide)).1⟩

/-- Claim C1: the reward returned by `step` follows the extraction priority of
the specification: the reply's `composite-reward` when reward tracking is
enabled and the key is present, else the reply's `rewards.score-delta` when
present, else 0. -/
theorem step_reward_policy (env : ClorkEnv) (action : ActionInput) (response : Obs)
    (h : env.process = some ()) :
    stepRewardOf (env.step action (ChannelRead.line response)) =
      some (rewardSpecPolicy env.use_rewards response) := by
  unfold ClorkEnv.step stepRewardOf rewardSpecPolicy
  rw [h]
  rcases henv : env.use_rewards <;>
    rcases hcr : response.composite_reward with _ | cr <;>
      rcases hrw : response.rewards with _ | rs <;>
        simp [henv, hcr, hrw] <;>
          rcases halk : alookup rs "score-delta" with _ | v <;> simp [halk]

/-- Claim C1 witness: with tracking enabled and both `composite-reward: 3` and
`rewards.score-delta: 1` present the reward is 3; with tracking disabled and
only `score-delta: 1` present it is 1; with neither present it is 0. -/
theorem step_reward_policy_witness :
    envStarted.process = some () ∧
    stepRewardOf (envStarted.step actLook (ChannelRead.line respBoth)) = some 3 ∧
    stepRewardOf (envNoRewards.step actLook (ChannelRead.line respDelta)) = some 1 ∧
    stepRewardOf (envStarted.step actLook (ChannelRead.line obsEmpty)) = some 0 := by
  refine ⟨rfl, ?_, ?_, ?_⟩
  · rw [step_reward_policy envStarted actLook respBoth rfl]
    decide
  · rw [step_reward_policy envNoRewards actLook respDelta rfl]
    decide
  · rw [step_reward_policy envStarted actLook obsEmpty rfl]
    decide

/-- Claim C7: an empty/EOF read during a `step` or `reset` round trip fails
with the process-died condition whose message is the fixed diagnostic prefix
followed by the drained stderr contents — hence never empty, and carrying the
error stream's contents whenever they are non-empty — and no default
observation is ever returned in that situation. -/
theorem eof_raises_process_died (env : ClorkEnv) (action : ActionInput)
    (stderrText : String) (h : env.process = some ()) :
    env.step action (ChannelRead.eof stderrText) =
      Except.error (ClorkError.processDied ("Clork process died unexpectedly: " ++ stderrText)) ∧
    env.reset (ChannelRead.eof stderrText) =
      Except.error (ClorkError.processDied ("Clork process died unexpectedly: " ++ stderrText)) ∧
    (∀ env2 : ClorkEnv, env2.process = none →
      env2.reset (ChannelRead.eof stderrText) =
        Except.error (ClorkError.processDied ("Failed to read initial state: " ++ stderrText))) ∧
    ("Clork process died unexpectedly: " ++ stderrText) ≠ "" ∧
    ("Failed to read initial state: " ++ stderrText) ≠ "" := by
  refine ⟨?_, ?_, ?_, ?_, ?_⟩
  · unfold ClorkEnv.step
    rw [h]
  · unfold ClorkEnv.reset
    rw [h]
  · intro env2 h2
    unfold ClorkEnv.reset
    rw [h2]
  · exact string_append_ne_empty _ _ (by decide)
  · exact string_append_ne_empty _ _ (by decide)

/-- Claim C7 witness: the EOF failure on a concrete started environment, with
stderr contents `boom`. -/
theorem eof_raises_process_died_witness :
    envStarted.process = some () ∧
    envStarted.step actLook (ChannelRead.eof "boom") =
      Except.error (ClorkError.processDied "Clork process died unexpectedly: boom") :=
  ⟨rfl, (eof_raises_process_died envStarted actLook "boom" rfl).1⟩

theorem close_always_ok (env : ClorkEnv) :
    ∃ env2, env.close = Except.ok env2 ∧ env2.close = Except.ok env2 := by
  cases hp : env.process with
  | none => exact ⟨env, by simp [ClorkEnv.close, hp], by simp [ClorkEnv.close, hp]⟩
  | some u =>
    exact ⟨{ env with process := none }, by simp [ClorkEnv.close, hp],
      by simp [ClorkEnv.close]⟩

/-- Claim C8: `close` never fails — it is a no-op on a never-started (or
already-closed) environment, and after a first `close` a second `close`
succeeds and changes nothing. -/
theorem close_idempotent (env : ClorkEnv) :
    (∃ env2, env.close = Except.ok env2 ∧ env2.close = Except.ok env2) ∧
    (env.process = none → env.close = Except.ok env) := by
  refine ⟨close_always_ok env, ?_⟩
  intro hp
  simp [ClorkEnv.close, hp]

/-- Claim C8 witness: closing a concrete never-started environment succeeds and
leaves it unchanged. -/
theorem close_idempotent_witness :
    envUnstarted.process = none ∧ envUnstarted.close = Except.ok envUnstarted :=
  ⟨rfl, (close_idempotent envUnstarted).2 rfl⟩

/-- Claim C9: with no cached observation, `valid_actions` raises the
no-observation error rather than returning an empty list, while the
convenience accessors return their documented defaults (0, absent, empty
string, empty list, empty mapping). -/
theorem no_observation_behavior (env : ClorkEnv) (dangerous : Bool)
    (h : env.observation = none) :
    env.valid_actions dangerous =
      Except.error (ClorkError.noObservation "No observation available. Call reset() first.") ∧
    env.score = 0 ∧ env.moves = 0 ∧ env.room = none ∧ env.message = "" ∧
    env.inventory = [] ∧ env.session_stats = [] := by
  unfold ClorkEnv.valid_actions ClorkEnv.score ClorkEnv.moves ClorkEnv.room
    ClorkEnv.message ClorkEnv.inventory ClorkEnv.session_stats
  rw [h]
  exact ⟨rfl, rfl, rfl, rfl, rfl, rfl, rfl⟩

/-- Claim C9 witness: the behavior on a concrete never-reset environment. -/
theorem no_observation_behavior_witness :
    envUnstarted.observation = none ∧
    envUnstarted.valid_actions false =
      Except.error (ClorkError.noObservation "No observation available. Call reset() first.") ∧
    envUnstarted.score = 0 :=
  ⟨rfl, (no_observation_behavior envUnstarted false rfl).1,
    (no_observation_behavior envUnstarted false rfl).2.1⟩

theorem foldl_push_map {α β : Type} (f : α → β) (l : List α) (init : List β) :
    l.foldl (fun acc x => acc ++ [f x]) init = init ++ l.map f := by
  induction l generalizing init with
  | nil => simp
  | cons a t ih => simp [ih]

theorem foldl_push_filter_map {α β : Type} (p : α → Bool) (f : α → β) (l : List α)
    (init : List β) :
    l.foldl (fun acc x => if p x then acc ++ [f x] else acc) init
      = init ++ (l.filter p).map f := by
  induction l generalizing init with
  | nil => simp
  | cons a t ih =>
    by_cases h : p a <;> simp [h, ih]

theorem foldl_append_flatMap {α γ : Type} (m : α → List γ) (l : List α)
    (init : List γ) :
    l.foldl (fun acc x => acc ++ m x) init = init ++ l.flatMap m := by
  induction l generalizing init with
  | nil => simp
  | cons a t ih => simp [ih, List.append_assoc]

/-- Claim C5: with a cached observation, `valid_actions` returns exactly the
filtered meta-verbs (all of them when dangerous ones are included, otherwise
those outside the excluded set), then one `go` action per movement direction,
then one action per (object, verb) pair in the menu's key order, then one
action per two-object tuple — concatenated in exactly that order. -/
theorem valid_actions_order (env : ClorkEnv) (obs : Obs) (dangerous : Bool)
    (h : env.observation = some obs) :
    env.valid_actions dangerous = Except.ok (
      ((if dangerous then (obs.valid_actions.getD Menu.empty).meta_verbs
        else (obs.valid_actions.getD Menu.empty).meta_verbs.filter
          (fun verb => !(EXCLUDED_META_VERBS.contains verb))).map
        (fun verb => ({ verb := some verb, direction := none, direct_object := none,
                        indirect_object := none, prep := none } : Action)))
      ++ ((obs.valid_actions.getD Menu.empty).directions.map
        (fun dir => ({ verb := some "go", direction := some dir, direct_object := none,
                       indirect_object := none, prep := none } : Action)))
      ++ ((obs.valid_actions.getD Menu.empty).object_actions.flatMap
        (fun p => p.2.map
          (fun verb => ({ verb := some verb, direction := none, direct_object := some p.1,
                          indirect_object := none, prep := none } : Action))))
      ++ ((obs.valid_actions.getD Menu.empty).two_object_actions.map
        (fun t => ({ verb := t.verb, direction := none, direct_object := t.direct_object,
                     indirect_object := t.indirect_object, prep := t.prep } : Action)))) := by
  unfold ClorkEnv.valid_actions
  rw [h]
  simp only [foldl_push_filter_map]
  simp only [foldl_push_map]
  simp only [foldl_append_flatMap]
  cases dangerous with
  | false =>
    simp [List.append_assoc]
  | true =>
    simp [List.append_assoc]

/-- Claim C5 witness: on the concrete sample menu, `valid_actions` without
dangerous verbs is exactly look, inventory (quit excluded), go north,
take lamp, drop lamp, put lamp in box — in that order. -/
theorem valid_actions_order_witness :
    envWithMenu.observation = some obsMenu ∧
    envWithMenu.valid_actions false = Except.ok
      [⟨some "look", none, none, none, none⟩,
       ⟨some "inventory", none, none, none, none⟩,
       ⟨some "go", some "north", none, none, none⟩,
       ⟨some "take", none, some "lamp", none, none⟩,
       ⟨some "drop", none, some "lamp", none, none⟩,
       ⟨some "put", none, some "lamp", some "box", some "in"⟩] := by
  refine ⟨rfl, ?_⟩
  rw [valid_actions_order envWithMenu obsMenu false rfl]
  decide

/-- Claim C4 counterexample: with three started children and identical stderr
contents, a failure of child 1 and a failure of child 0 produce the very same
error value — the child's own error propagates unchanged, so the error does
not identify the failing index and is not an aggregate. -/
theorem vec_step_error_counterexample :
    ClorkVecEnv.step ⟨[envStarted, envStarted, envStarted]⟩ [actLook, actLook, actLook]
      [ChannelRead.line obsEmpty, ChannelRead.eof "boom", ChannelRead.line obsEmpty] =
      Except.error (ClorkError.processDied "Clork process died unexpectedly: boom") ∧
    ClorkVecEnv.step ⟨[envStarted, envStarted, envStarted]⟩ [actLook, actLook, actLook]
      [ChannelRead.eof "boom", ChannelRead.line obsEmpty, ChannelRead.line obsEmpty] =
      Except.error (ClorkError.processDied "Clork process died unexpectedly: boom") := by
  exact ⟨rfl, rfl⟩

/-- Claim C4 (amended): when child 1 of three fails its round trip (EOF), the
vectorized `step` propagates that child's own error verbatim — a single error,
but the child's original one, with no index identification and no aggregate
wrapper — and children 0 and 2 remain independently closable (their `close`
still succeeds). -/
theorem vec_step_child_failure (e0 e1 e2 : ClorkEnv) (a0 a1 a2 : ActionInput)
    (r0 r2 : ChannelRead) (stderrText : String) (res0 : ClorkEnv × StepResult)
    (h0 : e0.step a0 r0 = Except.ok res0) (h1 : e1.process = some ()) :
    ClorkVecEnv.step ⟨[e0, e1, e2]⟩ [a0, a1, a2] [r0, ChannelRead.eof stderrText, r2] =
      Except.error (ClorkError.processDied ("Clork process died unexpectedly: " ++ stderrText)) ∧
    (∃ c0, e0.close = Except.ok c0) ∧ (∃ c2, e2.close = Except.ok c2) := by
  refine ⟨?_, (close_always_ok e0).imp (fun c hc => hc.1),
    (close_always_ok e2).imp (fun c hc => hc.1)⟩
  have hfail : e1.step a1 (ChannelRead.eof stderrText) =
      Except.error (ClorkError.processDied ("Clork process died unexpectedly: " ++ stderrText)) := by
    unfold ClorkEnv.step
    rw [h1]
  have hsc : stepChildren
      ([e0, e1, e2].zip ([a0, a1, a2].zip [r0, ChannelRead.eof stderrText, r2])) =
      Except.error (ClorkError.processDied ("Clork process died unexpectedly: " ++ stderrText)) := by
    have hz : ([e0, e1, e2].zip ([a0, a1, a2].zip [r0, ChannelRead.eof stderrText, r2])) =
        [(e0, a0, r0), (e1, a1, ChannelRead.eof stderrText), (e2, a2, r2)] := rfl
    rw [hz]
    simp only [stepChildren]
    rw [h0, hfail]
  unfold ClorkVecEnv.step
  rw [hsc]

/-- Claim C4 witness: the amended behavior at concrete children, where child 0
succeeds with an empty reply and child 1 hits EOF with stderr `boom`. -/
theorem vec_step_child_failure_witness :
    envStarted.step actLook (ChannelRead.line obsEmpty) = Except.ok
      ({ envStarted with observation := some obsEmpty },
       { observation := obsEmpty, reward := 0, done := false,
         info := { rewards := none, session_stats := none, message := none } }) ∧
    envStarted.process = some () ∧
    ClorkVecEnv.step ⟨[envStarted, envStarted, envStarted]⟩ [actLook, actLook, actLook]
      [ChannelRead.line obsEmpty, ChannelRead.eof "boom", ChannelRead.line obsEmpty] =
      Except.error (ClorkError.processDied ("Clork process died unexpectedly: " ++ "boom")) := by
  refine ⟨by decide, rfl, ?_⟩
  exact (vec_step_child_failure envStarted envStarted envStarted actLook actLook actLook
    (ChannelRead.line obsEmpty) (ChannelRead.line obsEmpty) "boom"
    ({ envStarted with observation := some obsEmpty },
     { observation := obsEmpty, reward := 0, done := false,
       info := { rewards := none, session_stats := none, message := none } })
    (by decide) rfl).1

end Clork
